import Mathlib

/-!
A shallow embedding of the trial-scheduling core of the SMAC3 repository,
together with theorems about the embedded operations.

Conventions used throughout:
* Python floats are modelled as rationals (`ℚ`); no floating-point rounding
  is modelled, all the verified properties are order/control-flow properties.
* Python exceptions are modelled by the `Except PyError` monad; a function
  that can `raise` returns `Except PyError α`.
* External collaborators (the surrogate model, the acquisition machinery,
  scipy's `truncnorm.stats`, the dask cluster) are modelled as oracle
  parameters; the embedded definitions reproduce the repository's own
  control flow around those oracles.
-/

namespace SMAC

/-- Python exceptions raised by the embedded code. -/
inductive PyError where
  | valueError (msg : String)
  | keyError
  | nameError
  | runtimeError (msg : String)
  | indexError
  deriving Repr, DecidableEq

/-! ## StoppingCallback (`smac/callback/stopping_callback.py`)

`StoppingCallback.on_tell_end` decides after each told trial whether the
optimization should continue (`True`) or stop (`False`).  The embedding
keeps the constructor arguments in `StoppingCallbackCfg` and gathers the
data `on_tell_end` reads from the `smbo` object into `StoppingInput`:

* `submitted` — `smbo.runhistory.submitted`;
* `max_budget` — `smbo.intensifier._max_budget` (the code asserts the
  intensifier is a `SuccessiveHalving`, which the embedding assumes);
* `info_budget` — `info.budget` of the told trial (may be `None`);
* `model_trained_on_budget` — `config_selector._model_trained_on_budget`;
* `incumbent_trial_budgets` — the budgets of
  `smbo.runhistory.get_trials(incumbent_config)` (`none` models the list
  being `None`); only the budget field of a trial is inspected;
* `stat_error_info` — `trial_value.additional_info[statistical_error_field_name]`
  for the single incumbent trial (`none` models a missing key, which in
  Python raises a `KeyError`);
* `model_fitted` — `config_selector.model.fitted`;
* `num_budget_configs` — the length of the config list built in the
  highest-fidelity branch (`get_configs_for_budget`);
* `min_ucb`, `min_lcb` — the values produced by `compute_min_lcb_ucb`,
  which only exercises the external acquisition machinery and is therefore
  an oracle of the embedding.
-/

structure StoppingCallbackCfg where
  wait_iterations : ℕ
  statistical_error_threshold : Option ℚ
  do_not_trigger : Bool
  epsilon : ℚ
  highest_fidelity_only : Bool
  deriving Repr, DecidableEq

structure StoppingInput where
  submitted : ℕ
  max_budget : ℚ
  info_budget : Option ℚ
  model_trained_on_budget : Option ℚ
  incumbent_trial_budgets : Option (List (Option ℚ))
  stat_error_info : Option ℚ
  model_fitted : Bool
  num_budget_configs : ℕ
  min_ucb : ℚ
  min_lcb : ℚ
  deriving Repr, DecidableEq

/-- Retrieval of the incumbent's statistical error (lines 161–164): the fixed
threshold if configured, otherwise the `additional_info` field of the
incumbent's trial value; a missing field raises `KeyError`. -/
def statError (cb : StoppingCallbackCfg) (s : StoppingInput) : Except PyError ℚ :=
  match cb.statistical_error_threshold with
  | some e => .ok e
  | none =>
    match s.stat_error_info with
    | some e => .ok e
    | none => .error .keyError

/-- `StoppingCallback.on_tell_end` (lines 116–233). -/
def onTellEnd (cb : StoppingCallbackCfg) (s : StoppingInput) : Except PyError Bool :=
  -- do not trigger stopping criterion before wait_iterations
  if s.submitted < cb.wait_iterations then .ok true
  -- in the case of the highest fidelity only, check that the received config
  -- is on the highest fidelity and the model is trained on the highest fidelity
  else if cb.highest_fidelity_only &&
      (decide (s.info_budget ≠ some s.max_budget) ||
       decide (s.model_trained_on_budget ≠ some s.max_budget)) then .ok true
  else
    match s.incumbent_trial_budgets with
    | none => .ok true          -- "No trial info for incumbent found." warning
    | some trials =>
      if trials.length = 0 then .ok true
      else if 1 < trials.length then
        .error (.valueError "Currently, only one trial per config is supported.")
      else
        -- trial_info = trial_info_list[0]
        let t := trials.headI
        -- only check for stopping for new trials on highest budget
        if cb.highest_fidelity_only && decide (t ≠ some s.max_budget) then .ok true
        else
          match statError cb s with
          | .error e => .error e
          | .ok incumbent_statistical_error =>
            if s.model_fitted then
              -- have at least that many evals on the highest budget
              if cb.highest_fidelity_only &&
                  decide (s.num_budget_configs < cb.wait_iterations) then .ok true
              else
                let regret := s.min_ucb - s.min_lcb
                -- stopping once regret < incumbent statistical error
                -- (return False = do not continue optimization)
                let continue_optimization :=
                  decide (incumbent_statistical_error ≤ regret) ||
                  decide (|incumbent_statistical_error - regret| < cb.epsilon)
                if cb.do_not_trigger then .ok true else .ok continue_optimization
            else .ok true       -- "model is not built yet"

/-- All the guards of `on_tell_end` that precede the regret computation pass:
enough submitted trials, the highest-fidelity checks (when enabled), exactly
one incumbent trial, a retrievable statistical error, and a fitted model. -/
def reachesRegret (cb : StoppingCallbackCfg) (s : StoppingInput) : Bool :=
  decide (cb.wait_iterations ≤ s.submitted) &&
  (match s.incumbent_trial_budgets with
   | some [t] =>
     !cb.highest_fidelity_only ||
       (decide (s.info_budget = some s.max_budget) &&
        decide (s.model_trained_on_budget = some s.max_budget) &&
        decide (t = some s.max_budget) &&
        decide (cb.wait_iterations ≤ s.num_budget_configs))
   | _ => false) &&
  (statError cb s).isOk &&
  s.model_fitted

/-! ## TargetAlgorithmRunner (`smac/runner/target_algorithm_runner.py`)

`AbstractTargetAlgorithmRunner.run` wraps one call of the user's target
algorithm.  The embedding models:

* the dynamic Python value returned as a cost (`CostVal`): `None`, a float,
  a list of floats, or a dict mapping objective names to floats;
* the outcome of calling the target algorithm (`TAOutcome`): either it
  raises (carrying `repr(e)` and `traceback.format_exc()`), or it returns a
  cost value together with the optional additional-run-info dict (Python's
  `isinstance(rval, tuple)` destructuring; a bare return is the same as a
  tuple with an empty info dict);
* `elapsed` — the wall-clock time measured around the call in the
  un-limited branch (an oracle; `run` only threads it through).

The pynisher-limited branch of the source never reaches the shared
sanity-checking tail: its `except` clause returns early, and its success
path reads `obj.exit_status` where the local variable `obj` is never
assigned (the `pynisher.enforce_limits` construction that used to bind it
is commented out), so Python raises `NameError` there.  The embedding
therefore inlines the sanity-checking tail in the un-limited branch only.
-/

inductive CostVal where
  | pyNone
  | float (q : ℚ)
  | list (qs : List ℚ)
  | dict (entries : List (String × ℚ))
  deriving Repr, DecidableEq

/-- Outcome of calling the target algorithm once. -/
inductive TAOutcome where
  | raises (error_message traceback : String)
  | returns (result : CostVal) (info : List (String × String))
  deriving Repr, DecidableEq

inductive StatusType where
  | SUCCESS
  | TIMEOUT
  | MEMOUT
  | CRASHED
  | ABORT
  deriving Repr, DecidableEq

/-- The constructor state of `AbstractTargetAlgorithmRunner` that `run`
reads. -/
structure RunnerCfg where
  multi_objectives : List String
  cost_for_crash : ℚ
  memory_limit : Option ℕ
  deriving Repr, DecidableEq

/-- The quadruple returned by `run`. -/
structure RunResult where
  status : StatusType
  cost : CostVal
  runtime : ℚ
  additional_info : List (String × String)
  deriving Repr, DecidableEq

/-- `np.asarray(cost).squeeze().tolist()`: a one-element list collapses to
its scalar; everything else is unchanged. -/
def squeeze : CostVal → CostVal
  | .list [q] => .float q
  | c => c

/-- The dict branch of the multi-objective sanity check (lines 233–240):
reorder the returned dict by `multi_objectives`, raising
`RuntimeError` for the first objective name missing from the dict.
Python dict lookup is modelled by `List.lookup` (first match; the keys of a
Python dict are distinct). -/
def orderDict (names : List String) (entries : List (String × ℚ)) :
    Except PyError (List ℚ) :=
  match names with
  | [] => .ok []
  | name :: rest =>
    match entries.lookup name with
    | none => .error (.runtimeError
        (String.append (String.append "Objective " name) " was not found in the returned costs."))
    | some q =>
      match orderDict rest entries with
      | .error e => .error e
      | .ok qs => .ok (q :: qs)

/-- The multi-objective sanity check (lines 228–247), applied when more than
one objective is configured.  The interpolated values of the source's
error message are elided. -/
def sanityCheckCost (cfg : RunnerCfg) (cost : CostVal) : Except PyError CostVal :=
  if 1 < cfg.multi_objectives.length then
    let errmsg := "Returned costs does not match the number of objectives."
    match cost with
    | .dict entries =>
      match orderDict cfg.multi_objectives entries with
      | .error e => .error e
      | .ok qs =>
        -- the converted dict is a list and falls through to the list check
        if qs.length ≠ cfg.multi_objectives.length then .error (.runtimeError errmsg)
        else .ok (.list qs)
    | .list qs =>
      if qs.length ≠ cfg.multi_objectives.length then .error (.runtimeError errmsg)
      else .ok (.list qs)
    | .float _ => .error (.runtimeError errmsg)
    | .pyNone => .ok cost
  else .ok cost

/-- `AbstractTargetAlgorithmRunner.run` (lines 95–255). -/
def runTA (cfg : RunnerCfg) (algorithm_walltime_limit : Option ℚ) (ta : TAOutcome)
    (elapsed : ℚ) : Except PyError RunResult :=
  let cost0 : CostVal := .float cfg.cost_for_crash
  let use_pynisher := cfg.memory_limit.isSome || algorithm_walltime_limit.isSome
  if use_pynisher then
    match ta with
    | .raises emsg tb =>
      -- the except-clause early return (lines 174–183)
      .ok ⟨.CRASHED, squeeze cost0, 0, [("traceback", tb), ("error", emsg)]⟩
    | .returns _ _ =>
      -- line 193 reads `obj.exit_status`, but `obj` is never assigned in
      -- this method, so Python raises NameError here
      .error .nameError
  else
    let stage :=
      match ta with
      | .returns result info => (StatusType.SUCCESS, result, info)
      | .raises _ _ => (StatusType.CRASHED, cost0, ([] : List (String × String)))
    match sanityCheckCost cfg stage.2.1 with
    | .error e => .error e
    | .ok cost1 =>
      let crashed := cost1 = .pyNone ∨ stage.1 = .CRASHED
      let status2 := if crashed then StatusType.CRASHED else stage.1
      let cost2 := if crashed then CostVal.float cfg.cost_for_crash else cost1
      .ok ⟨status2, squeeze cost2, elapsed, stage.2.2⟩

/-! ## DaskParallelRunner (`smac/runner/dask_runner.py`)

The worker pool keeps a list of in-flight dask futures (`self.futures`) and
a list of collected results (`self.results`).  The embedding models:

* a future (`DFuture`) by an identity, its `done()` flag, and the
  `RunValue` its `result()` call yields (abstracted to a natural number);
  dask futures are pairwise distinct objects (`pure=False` submissions get
  unique keys), so removing a future from a list is filtering;
* the dynamic total capacity `sum(self.client.nthreads().values())` by a
  fresh natural-number reading at every call site that queries it
  (`SubmitEnv` bundles the readings `submit_run` makes);
* the blocking `dask.distributed.wait(self.futures,
  return_when="FIRST_COMPLETED")` — called without a `timeout` argument, it
  returns once some future completes and otherwise blocks forever; the
  completions it observes are an oracle (`newly_done` / `ever_completes`).
-/

structure DFuture where
  fid : ℕ
  done : Bool
  res : ℕ
  deriving Repr, DecidableEq

structure DaskPool where
  futures : List DFuture
  results : List ℕ
  deriving Repr, DecidableEq

/-- `DaskParallelRunner._workers_available` (lines 258–263). -/
def workersAvailable (futures : List DFuture) (total_compute_power : ℕ) : Bool :=
  futures.length < total_compute_power

/-- `DaskParallelRunner._extract_completed_runs_from_futures`
(lines 194–214): warn when there are more in-flight futures than capacity,
then move every done future's result into the results list, in order.
The returned flag records whether the warning was logged. -/
def extractCompleted (s : DaskPool) (nthreads : ℕ) : DaskPool × Bool :=
  let warned := decide (nthreads < s.futures.length)
  let done_futures := s.futures.filter (fun f => f.done)
  (⟨s.futures.filter (fun f => !f.done),
    s.results ++ done_futures.map (fun f => f.res)⟩, warned)

/-- Futures whose id the oracle `nd` marks have completed. -/
def markDone (nd : ℕ → Bool) (fs : List DFuture) : List DFuture :=
  fs.map (fun f => ⟨f.fid, f.done || nd f.fid, f.res⟩)

/-- The environment `submit_run` observes: the capacity readings of its
three `_workers_available` calls and of the check inside the extraction,
the completions arriving while blocked in the dask wait, and the future
created by `client.submit`.  The patience sleep changes neither
`self.futures` nor the done flags the next check looks at — only a fresh
capacity reading (`cap3`) can differ after it. -/
structure SubmitEnv where
  cap1 : ℕ
  newly_done : ℕ → Bool
  capExtract : ℕ
  cap2 : ℕ
  cap3 : ℕ
  newFuture : DFuture

/-- Whether `dask.distributed.wait(fs, return_when="FIRST_COMPLETED")`
called with the default `timeout=None` ever returns: it does iff `fs` is
empty, some future in `fs` is already done, or some future in `fs`
eventually completes (`nd`).  Otherwise the call blocks forever. -/
def waitReturns (nd : ℕ → Bool) (fs : List DFuture) : Bool :=
  fs.isEmpty || fs.any (fun f => f.done || nd f.fid)

/-- The pool state after the first availability check and the conditional
wait-and-extract step of `submit_run` (lines 152–156): `none` when the
slot check fails and the timeout-less dask wait at line 154 never returns
(no in-flight future is done or ever completes), so `submit_run` blocks
forever inside that call. -/
def afterWait (env : SubmitEnv) (s : DaskPool) : Option DaskPool :=
  if workersAvailable s.futures env.cap1 then some s
  else if waitReturns env.newly_done s.futures then
    some (extractCompleted ⟨markDone env.newly_done s.futures, s.results⟩ env.capExtract).1
  else none

/-- Possible outcomes of `submit_run`: a submission, an exception, or
blocking forever in the timeout-less dask wait. -/
inductive SubmitOutcome where
  | ok (pool : DaskPool)
  | raised (e : PyError)
  | blocksForever
  deriving Repr, DecidableEq

/-- Lines 158–172 of `submit_run`, reached only when the dask wait at line
154 returned (or no wait was needed): the re-check, the patience sleep
with its final check, and either the hard `ValueError` or the submission
of the new future. -/
def submitTail (env : SubmitEnv) (s1 : DaskPool) : SubmitOutcome :=
  -- in-code check to make sure that there are resources
  if !(workersAvailable s1.futures env.cap2) then
    -- warning, then time.sleep(self.patience)
    if !(workersAvailable s1.futures env.cap3) then
      .raised (.valueError "Tried to execute a job, but no worker was available. This likely means that a worker crashed or no workers were properly configured.")
    else .ok ⟨s1.futures ++ [env.newFuture], s1.results⟩
  else .ok ⟨s1.futures ++ [env.newFuture], s1.results⟩

/-- `DaskParallelRunner.submit_run` (lines 132–172). -/
def submitRun (env : SubmitEnv) (s : DaskPool) : SubmitOutcome :=
  match afterWait env s with
  | none => .blocksForever
  | some s1 => submitTail env s1

inductive WaitOutcome where
  | wreturns
  | blocksForever
  deriving Repr, DecidableEq

/-- `DaskParallelRunner.wait` (lines 216–223): when futures are in flight it
calls `dask.distributed.wait(self.futures, return_when="FIRST_COMPLETED)"`
with the default `timeout=None`; `ever_completes` is the oracle saying
whether any in-flight future ever completes — if none does, the call never
returns.  No exception is ever raised. -/
def poolWait (futures : List DFuture) (ever_completes : Bool) : WaitOutcome :=
  if futures.isEmpty then .wreturns
  else if ever_completes then .wreturns
  else .blocksForever

/-! ## RFRImputator (`smac/model/random_forest/rfr_imputator.py`)

`RFRImputator.impute` iteratively imputes right-censored cost values.  The
embedding indexes the `N` censored points by `Fin n` and models the
external components as iteration-indexed oracles:

* `mean it i` — `y_mean[i]` predicted by the model at iteration `it`
  (retraining between iterations is reflected in the dependence on `it`;
  the variance feeds only into the truncnorm oracle below);
* `tn it i` — the result of `truncnorm.stats` for point `i` at iteration
  `it` (the mean of a normal truncated to `[censored_y[i], threshold]`);
  `none` models a non-finite (nan/inf) result.

After the nan replacement (`max(censored_y, y_mean)`) every entry is a
finite number, which is why the per-iteration arrays are plain `ℚ`.
The loop's `while True` with `it += 1; if it > max_iter: break` is driven
by a fuel argument initialised to `max_iter`; the fuel-exhausted fallback
is unreachable because the loop only recurses while `it + 1 ≤ max_iter`.
-/

structure ImputeCfg where
  algorithm_walltime_limit : ℚ
  threshold : ℚ
  change_threshold : ℚ
  max_iter : ℕ
  deriving Repr, DecidableEq

/-- One iteration's imputed vector before the threshold cap: the truncnorm
value where finite, else `max(censored_y, y_mean)` (lines 138–155). -/
def rawImpute {n : ℕ} (cy mean : Fin n → ℚ) (tn : Fin n → Option ℚ) : Fin n → ℚ :=
  fun i =>
    match tn i with
    | some v => v
    | none => max (cy i) (mean i)

/-- `imputed_y[imputed_y >= self.threshold] = self.threshold` (line 166). -/
def clampThreshold {n : ℕ} (threshold : ℚ) (v : Fin n → ℚ) : Fin n → ℚ :=
  fun i => if threshold ≤ v i then threshold else v i

/-- `np.mean(np.abs(imputed_y - y[m:]) / y[m:])` (line 162), the mean
relative change between the current raw imputation and the previous
iteration's (capped) imputation. -/
def meanRelChange {n : ℕ} (prev cur : Fin n → ℚ) : ℚ :=
  (∑ i, |cur i - prev i| / prev i) / n

/-- The `while True` loop of `impute` (lines 122–180).  Returns the final
capped imputation, the number of executed loop bodies, and the list of the
`change` values (one per executed body, in order). -/
def imputeLoop {n : ℕ} (cfg : ImputeCfg) (cy : Fin n → ℚ) (mean : ℕ → Fin n → ℚ)
    (tn : ℕ → Fin n → Option ℚ) : ℕ → ℕ → (Fin n → ℚ) → (Fin n → ℚ) × ℕ × List ℚ
  | 0, it, prev =>
    -- fuel exhausted: every branch of the body returns the same value when
    -- no recursion is possible (unreachable when the fuel starts at
    -- `max_iter`, since the loop only recurses while `it + 1 ≤ max_iter`)
    (clampThreshold cfg.threshold (rawImpute cy (mean it) (tn it)), it,
      [if 1 < it then meanRelChange prev (rawImpute cy (mean it) (tn it)) else 0])
  | fuel + 1, it, prev =>
    let raw := rawImpute cy (mean it) (tn it)
    let change := if 1 < it then meanRelChange prev raw else 0
    let clamped := clampThreshold cfg.threshold raw
    if cfg.change_threshold < change ∨ it = 1 then
      -- model.train(X, y) — the retrained model shows up as `mean (it+1)`
      if cfg.max_iter < it + 1 then (clamped, it, [change])
      else
        let r := imputeLoop cfg cy mean tn fuel (it + 1) clamped
        (r.1, r.2.1, change :: r.2.2)
    else (clamped, it, [change])

/-- `RFRImputator.impute` (lines 77–190): `none` for an empty censored set,
otherwise the loop's result with the final
`imputed_y[imputed_y >= algorithm_walltime_limit] = threshold`
substitution (line 186) applied. -/
def impute {n : ℕ} (cfg : ImputeCfg) (cy : Fin n → ℚ) (mean : ℕ → Fin n → ℚ)
    (tn : ℕ → Fin n → Option ℚ) : Option ((Fin n → ℚ) × ℕ × List ℚ) :=
  if n = 0 then none
  else
    let r := imputeLoop cfg cy mean tn cfg.max_iter 1 (fun _ => 0)
    some ⟨fun i => if cfg.algorithm_walltime_limit ≤ r.1 i then cfg.threshold else r.1 i,
      r.2.1, r.2.2⟩

/-- A concrete imputation run used by witnesses: one censored point with
cap 3, predicted mean 4, truncnorm mean 5, walltime limit 10, threshold
20, `change_threshold = 1/100`, `max_iter = 2`. -/
def imputeW : Option ((Fin 1 → ℚ) × ℕ × List ℚ) :=
  impute ⟨10, 20, 1/100, 2⟩ (fun _ => 3) (fun _ _ => 4) (fun _ _ => some 5)

/-- The imputed value of `imputeW`'s single censored point. -/
def imputeWVal : ℚ :=
  match imputeW with
  | some (r, _, _) => r ⟨0, Nat.one_pos⟩
  | none => 0

/-- The number of loop iterations `imputeW` executed. -/
def imputeWCount : ℕ :=
  match imputeW with
  | some (_, it, _) => it
  | none => 0

/-! ## IncumbentSelection / SingleObjectiveRanking
(`smac/selection/selection.py`, `smac/selection/ranking.py`)

`SingleObjectiveRanking.rank` is
`sorted(range(len(configurations)), key=lambda i: objectives[i])`; Python's
`sorted` is a stable sort, modelled by `List.mergeSort`.  Python's
`objectives[i]` raises on out-of-range access; the embedding uses `getD`
and the theorems assume the two lists have equal length, so every accessed
index is in range.  `IncumbentSelection.select` takes
`configurations[ranked_indices[0]]`; indexing into an empty ranking raises
`IndexError`. -/

def rank (nconf : ℕ) (objectives : List ℚ) : List ℕ :=
  (List.range nconf).mergeSort
    (fun i j => decide (objectives.getD i 0 ≤ objectives.getD j 0))

def select {α : Type} (configurations : List α) (objectives : List ℚ) :
    Except PyError α :=
  match rank configurations.length objectives with
  | [] => .error .indexError
  | best :: _ =>
    match configurations.get? best with
    | some c => .ok c
    | none => .error .indexError

/-- A stopping-callback configuration with a fixed statistical error
threshold `thr`, `epsilon = 1/10000`, highest-fidelity mode off. -/
def cbStop (thr : ℚ) : StoppingCallbackCfg := ⟨0, some thr, false, 1/10000, false⟩

/-- A stopping input with one incumbent trial, a fitted model,
`min_ucb = 5` and `min_lcb = 3`. -/
def sStop : StoppingInput := ⟨0, 0, none, none, some [none], none, true, 0, 5, 3⟩

/-! ## Theorems -/

/-- C1: with the regret computation reached (model fitted, enough trials,
exactly one incumbent trial, statistical error `err` retrieved) and the
manual "never trigger" override off, `on_tell_end` signals stop (returns
`False`) iff `regret = min_ucb - min_lcb` is strictly below the incumbent
statistical error and `|statistical_error - regret|` is at least `epsilon`. -/
theorem stopping_regret_decision (cb : StoppingCallbackCfg) (s : StoppingInput) (err : ℚ)
    (hreach : reachesRegret cb s = true)
    (herr : statError cb s = .ok err)
    (hdnt : cb.do_not_trigger = false) :
    onTellEnd cb s = .ok false ↔
      s.min_ucb - s.min_lcb < err ∧ cb.epsilon ≤ |err - (s.min_ucb - s.min_lcb)| := by
  unfold reachesRegret at hreach
  simp only [Bool.and_eq_true, decide_eq_true_eq] at hreach
  obtain ⟨⟨⟨hwait, hmatch⟩, hok⟩, hfit⟩ := hreach
  match htr : s.incumbent_trial_budgets with
  | none => rw [htr] at hmatch; simp at hmatch
  | some [] => rw [htr] at hmatch; simp at hmatch
  | some (a :: b :: rest) => rw [htr] at hmatch; simp at hmatch
  | some [t] =>
    rw [htr] at hmatch
    by_cases hfo : cb.highest_fidelity_only = true
    · simp only [hfo, Bool.not_true, Bool.false_or, Bool.and_eq_true,
        decide_eq_true_eq] at hmatch
      obtain ⟨⟨⟨hib, hmt⟩, htb⟩, hnum⟩ := hmatch
      simp only [onTellEnd, Nat.not_lt.mpr hwait, if_false, hfo, htr, herr, hfit, hdnt,
        hib, hmt, htb, Nat.not_lt.mpr hnum, List.headI, decide_not]
      simp [Except.ok.injEq, Bool.or_eq_false_iff, not_lt, le_abs]
    · simp only [Bool.not_eq_true] at hfo
      simp only [onTellEnd, Nat.not_lt.mpr hwait, if_false, hfo, htr, herr, hfit, hdnt,
        List.headI, Bool.false_and]
      simp [Except.ok.injEq, Bool.or_eq_false_iff, not_lt, le_abs]

/-- C1 witness: with `min_ucb = 5`, `min_lcb = 3`, `statistical_error = 5/2`,
`epsilon = 1/10000` the criterion triggers (returns `False`); with
`statistical_error = 1` it does not. -/
theorem stopping_regret_decision_witness :
    onTellEnd (cbStop (5/2)) sStop = .ok false ∧
    onTellEnd (cbStop 1) sStop ≠ .ok false := by
  constructor
  · refine (stopping_regret_decision (cbStop (5/2)) sStop (5/2) (by decide) rfl rfl).mpr
      ⟨by norm_num [sStop], ?_⟩
    show (1:ℚ)/10000 ≤ |5/2 - ((5:ℚ) - 3)|
    rw [show (5:ℚ)/2 - ((5:ℚ) - 3) = 1/2 by norm_num,
      abs_of_pos (by norm_num : (0:ℚ) < 1/2)]
    norm_num
  · intro h
    have h2 := (stopping_regret_decision (cbStop 1) sStop 1 (by decide) rfl rfl).mp h
    have h3 : ¬((5:ℚ) - 3 < 1) := by norm_num
    exact h3 (by simpa [sStop] using h2.1)

/-- C8 counterexample: the claim "on_tell_end returns True whenever the
surrogate model is not yet fitted" fails: with an unfitted model but two
recorded incumbent trials, `on_tell_end` raises a `ValueError` instead of
returning `True`. -/
theorem stopping_defer_counterexample :
    (StoppingInput.model_fitted ⟨0, 0, none, none, some [none, none], none, false, 0, 0, 0⟩
      = false) ∧
    onTellEnd ⟨0, some 1, false, 1/10000, false⟩
        ⟨0, 0, none, none, some [none, none], none, false, 0, 0, 0⟩ =
      .error (.valueError "Currently, only one trial per config is supported.") := by
  exact ⟨rfl, rfl⟩

/-- C8 (amended): `on_tell_end` returns `True` (continue) whenever fewer than
`wait_iterations` trials have been submitted; and, provided the incumbent
does not have two or more recorded trials and the statistical error is
retrievable, it also returns `True` whenever the model is not fitted —
neither condition surfaces as an error. -/
theorem stopping_defers (cb : StoppingCallbackCfg) (s : StoppingInput) :
    (s.submitted < cb.wait_iterations → onTellEnd cb s = .ok true) ∧
    (s.model_fitted = false →
      (∀ a b rest, s.incumbent_trial_budgets ≠ some (a :: b :: rest)) →
      (statError cb s).isOk = true →
      onTellEnd cb s = .ok true) := by
  refine ⟨fun h => by simp [onTellEnd, h], fun hfit htrials hok => ?_⟩
  cases htr : s.incumbent_trial_budgets with
  | none => simp [onTellEnd, htr, ite_self]
  | some trials =>
    match trials with
    | [] => simp [onTellEnd, htr, ite_self]
    | [t] =>
      obtain ⟨e, he⟩ : ∃ e, statError cb s = .ok e := by
        cases h : statError cb s with
        | ok e => exact ⟨e, rfl⟩
        | error e => rw [h] at hok; simp [Except.isOk, Except.toBool] at hok
      simp [onTellEnd, htr, he, hfit, ite_self]
    | a :: b :: rest => exact absurd htr (htrials a b rest)

/-- C8 amended witness. -/
theorem stopping_defers_witness :
    onTellEnd ⟨20, some 1, false, 1/10000, false⟩
        ⟨3, 0, none, none, some [none], none, false, 0, 0, 0⟩ = .ok true ∧
    onTellEnd ⟨0, some 1, false, 1/10000, false⟩
        ⟨3, 0, none, none, some [none], none, false, 0, 0, 0⟩ = .ok true := by
  constructor
  · exact (stopping_defers ⟨20, some 1, false, 1/10000, false⟩
      ⟨3, 0, none, none, some [none], none, false, 0, 0, 0⟩).1 (by decide)
  · exact (stopping_defers ⟨0, some 1, false, 1/10000, false⟩
      ⟨3, 0, none, none, some [none], none, false, 0, 0, 0⟩).2 rfl
      (by intro a b rest h; simp at h) (by decide)

/-- C9: once the early checks are passed (enough submitted trials; the
highest-fidelity mode off), an incumbent with more than one recorded trial
makes `on_tell_end` raise `ValueError("Currently, only one trial per config
is supported.")`, while an incumbent with no trials makes it return `True`
without raising. -/
theorem stopping_incumbent_trial_count (cb : StoppingCallbackCfg) (s : StoppingInput)
    (hw : cb.wait_iterations ≤ s.submitted)
    (hf : cb.highest_fidelity_only = false) :
    (∀ a b rest, s.incumbent_trial_budgets = some (a :: b :: rest) →
      onTellEnd cb s =
        .error (.valueError "Currently, only one trial per config is supported.")) ∧
    (s.incumbent_trial_budgets = some [] → onTellEnd cb s = .ok true) := by
  constructor
  · intro a b rest htr
    simp [onTellEnd, htr, hf, Nat.not_lt.mpr hw]
  · intro htr
    simp [onTellEnd, htr, hf, Nat.not_lt.mpr hw]

/-- C9 witness. -/
theorem stopping_incumbent_trial_count_witness :
    onTellEnd ⟨0, some 1, false, 1/10000, false⟩
        ⟨3, 0, none, none, some [none, none], none, true, 0, 0, 0⟩ =
      .error (.valueError "Currently, only one trial per config is supported.") ∧
    onTellEnd ⟨0, some 1, false, 1/10000, false⟩
        ⟨3, 0, none, none, some [], none, true, 0, 0, 0⟩ = .ok true := by
  constructor
  · exact (stopping_incumbent_trial_count ⟨0, some 1, false, 1/10000, false⟩
      ⟨3, 0, none, none, some [none, none], none, true, 0, 0, 0⟩
      (by decide) rfl).1 none none [] rfl
  · exact (stopping_incumbent_trial_count ⟨0, some 1, false, 1/10000, false⟩
      ⟨3, 0, none, none, some [], none, true, 0, 0, 0⟩
      (by decide) rfl).2 rfl

/-- C2 (code bug): in the resource-limited branch, a target-algorithm
exception yields a CRASHED result whose `additional_info` carries the error
message and traceback and whose cost is the configured crash cost; but a
limited run that returns normally (here cost `1/2`) raises `NameError`,
because `run` reads `obj.exit_status` while `obj` is never assigned — so
the TIMEOUT/MEMOUT statuses promised by the claim are unreachable. -/
theorem runTA_pynisher_paths :
    runTA ⟨["cost"], 2147483647, none⟩ (some 5)
        (.raises "ValueError('boom')" "Traceback (most recent call last): boom") 0 =
      .ok ⟨.CRASHED, .float 2147483647, 0,
        [("traceback", "Traceback (most recent call last): boom"),
         ("error", "ValueError('boom')")]⟩ ∧
    runTA ⟨["cost"], 2147483647, none⟩ (some 5) (.returns (.float (1/2)) []) 0 =
      .error .nameError :=
  ⟨rfl, rfl⟩

/-- C3 counterexample: with two objectives configured and the target
algorithm returning the plain float `1`, `run` raises a `RuntimeError` out
of the call instead of yielding a CRASHED result. -/
theorem runTA_multi_float_counterexample :
    runTA ⟨["obj1", "obj2"], 2147483647, none⟩ none (.returns (.float 1) []) 3 =
      .error (.runtimeError "Returned costs does not match the number of objectives.") :=
  rfl

/-- If some required objective name is missing from the returned dict,
`orderDict` raises a `RuntimeError`. -/
theorem orderDict_missing (names : List String) (entries : List (String × ℚ))
    (h : ∃ name ∈ names, entries.lookup name = none) :
    ∃ msg, orderDict names entries = .error (.runtimeError msg) := by
  induction names with
  | nil => simp at h
  | cons n rest ih =>
    obtain ⟨name, hmem, hl⟩ := h
    cases hn : entries.lookup n with
    | none =>
      exact ⟨String.append (String.append "Objective " n)
        " was not found in the returned costs.", by simp [orderDict, hn]⟩
    | some q =>
      rcases List.mem_cons.mp hmem with rfl | hmem2
      · rw [hn] at hl; exact absurd hl (by simp)
      · obtain ⟨msg, hmsg⟩ := ih ⟨name, hmem2, hl⟩
        exact ⟨msg, by simp [orderDict, hn, hmsg]⟩

/-- C3 (amended): with more than one objective configured, a wrong-shaped
cost — a plain float, a list of the wrong length, or a dict missing an
objective name — makes `run` raise a `RuntimeError` with a descriptive
message out of the call; the cost is neither truncated nor turned into a
CRASHED result. -/
theorem runTA_multi_wrong_shape (cfg : RunnerCfg) (h : 1 < cfg.multi_objectives.length)
    (hmem : cfg.memory_limit = none) (info : List (String × String)) (elapsed : ℚ) :
    (∀ q : ℚ, runTA cfg none (.returns (.float q) info) elapsed =
      .error (.runtimeError "Returned costs does not match the number of objectives.")) ∧
    (∀ qs : List ℚ, qs.length ≠ cfg.multi_objectives.length →
      runTA cfg none (.returns (.list qs) info) elapsed =
        .error (.runtimeError "Returned costs does not match the number of objectives.")) ∧
    (∀ entries : List (String × ℚ),
      (∃ name ∈ cfg.multi_objectives, entries.lookup name = none) →
      ∃ msg, runTA cfg none (.returns (.dict entries) info) elapsed =
        .error (.runtimeError msg)) := by
  refine ⟨fun q => ?_, fun qs hqs => ?_, fun entries hmiss => ?_⟩
  · simp [runTA, sanityCheckCost, h, hmem]
  · simp [runTA, sanityCheckCost, h, hqs, hmem]
  · obtain ⟨msg, hmsg⟩ := orderDict_missing cfg.multi_objectives entries hmiss
    exact ⟨msg, by simp [runTA, sanityCheckCost, h, hmsg, hmem]⟩

/-- C3 amended witness: a one-element list for two objectives. -/
theorem runTA_multi_wrong_shape_witness :
    runTA ⟨["obj1", "obj2"], 2147483647, none⟩ none (.returns (.list [5]) []) 3 =
      .error (.runtimeError "Returned costs does not match the number of objectives.") :=
  (runTA_multi_wrong_shape ⟨["obj1", "obj2"], 2147483647, none⟩ (by decide) rfl [] 3).2.1
    [5] (by decide)

/-- C4 counterexample: the pool's blocking wait on one in-flight future that
never completes blocks forever — `DaskParallelRunner.wait` passes no
timeout to the dask wait and has no error path, contradicting the claimed
bounded-wait-then-hard-error guarantee for `wait_for_any`. -/
theorem dask_wait_counterexample :
    poolWait [⟨0, false, 0⟩] false = .blocksForever :=
  rfl

/-- C4 (amended): neither wait is bounded by a timeout.  `submit_run`
blocks forever in the timeout-less dask wait exactly when its slot check
fails and no in-flight future is done or ever completes; the pool's
blocking `wait` likewise blocks forever (raising nothing) when no
in-flight future ever completes.  Only once the initial wait has returned
(or no wait was needed) is `submit_run` bounded: it raises the hard
`ValueError` exactly when both the re-check and the check after the single
patience sleep still find no available worker, and otherwise submits
(appends the new future) — it never loops or queues past that point. -/
theorem dask_submit_bounded (env : SubmitEnv) (s : DaskPool) :
    (submitRun env s = .blocksForever ↔
      workersAvailable s.futures env.cap1 = false ∧
      waitReturns env.newly_done s.futures = false) ∧
    (∀ s1 : DaskPool, afterWait env s = some s1 →
      (submitRun env s = .raised (.valueError "Tried to execute a job, but no worker was available. This likely means that a worker crashed or no workers were properly configured.") ↔
        workersAvailable s1.futures env.cap2 = false ∧
        workersAvailable s1.futures env.cap3 = false)) ∧
    (∀ (s1 : DaskPool) (s' : DaskPool), afterWait env s = some s1 →
      submitRun env s = .ok s' →
      s' = ⟨s1.futures ++ [env.newFuture], s1.results⟩) ∧
    (∀ fs : List DFuture, fs ≠ [] → poolWait fs false = .blocksForever) := by
  have htail : ∀ s1 : DaskPool, submitTail env s1 ≠ .blocksForever := by
    intro s1
    cases h2 : workersAvailable s1.futures env.cap2 <;>
      cases h3 : workersAvailable s1.futures env.cap3 <;>
      simp [submitTail, h2, h3]
  refine ⟨?_, ?_, ?_, ?_⟩
  · cases h1 : workersAvailable s.futures env.cap1 <;>
      cases hw : waitReturns env.newly_done s.futures <;>
      simp [submitRun, afterWait, h1, hw, htail]
  · intro s1 hs1
    rw [submitRun, hs1]
    cases h2 : workersAvailable s1.futures env.cap2 <;>
      cases h3 : workersAvailable s1.futures env.cap3 <;>
      simp [submitTail, h2, h3]
  · intro s1 s' hs1 hok
    rw [submitRun, hs1] at hok
    cases h2 : workersAvailable s1.futures env.cap2 <;>
      cases h3 : workersAvailable s1.futures env.cap3 <;>
      simp [submitTail, h2, h3] at hok <;> simp [← hok]
  · intro fs hfs
    simp [poolWait, hfs]

/-- C4 amended witness: one in-flight future, capacity 0 everywhere.  If
the future completes during the wait, `submit_run` raises the hard error
after the patience sleep; if it never completes, `submit_run` blocks
forever in the dask wait. -/
theorem dask_submit_bounded_witness :
    submitRun ⟨0, fun _ => true, 0, 0, 0, ⟨1, false, 0⟩⟩ ⟨[⟨0, false, 0⟩], []⟩ =
      .raised (.valueError "Tried to execute a job, but no worker was available. This likely means that a worker crashed or no workers were properly configured.") ∧
    submitRun ⟨0, fun _ => false, 0, 0, 0, ⟨1, false, 0⟩⟩ ⟨[⟨0, false, 0⟩], []⟩ =
      .blocksForever := by
  constructor
  · exact ((dask_submit_bounded ⟨0, fun _ => true, 0, 0, 0, ⟨1, false, 0⟩⟩
      ⟨[⟨0, false, 0⟩], []⟩).2.1 ⟨[], [0]⟩ rfl).mpr ⟨rfl, rfl⟩
  · exact (dask_submit_bounded ⟨0, fun _ => false, 0, 0, 0, ⟨1, false, 0⟩⟩
      ⟨[⟨0, false, 0⟩], []⟩).1.mpr ⟨rfl, rfl⟩

/-- C5: when the in-flight futures exceed the capacity reading, collecting
completed runs sets the warning flag, still moves every done future's
result into the results list (in order), keeps exactly the unfinished
futures, and raises nothing. -/
theorem dask_extract_overcapacity (s : DaskPool) (nthreads : ℕ)
    (h : nthreads < s.futures.length) :
    (extractCompleted s nthreads).2 = true ∧
    (extractCompleted s nthreads).1.results =
      s.results ++ (s.futures.filter (fun f => f.done)).map (fun f => f.res) ∧
    (extractCompleted s nthreads).1.futures = s.futures.filter (fun f => !f.done) ∧
    ∀ f ∈ s.futures, f.done = true → f.res ∈ (extractCompleted s nthreads).1.results := by
  refine ⟨by simp [extractCompleted, h], rfl, rfl, ?_⟩
  intro f hf hd
  simp only [extractCompleted, List.mem_append, List.mem_map]
  exact Or.inr ⟨f, List.mem_filter.mpr ⟨hf, by simp [hd]⟩, rfl⟩

/-- C5 witness: two in-flight futures against capacity 1 (a worker died);
the done future's result is collected and the warning flag is set. -/
theorem dask_extract_overcapacity_witness :
    (extractCompleted ⟨[⟨0, true, 7⟩, ⟨1, false, 9⟩], []⟩ 1).2 = true ∧
    (7 : ℕ) ∈ (extractCompleted ⟨[⟨0, true, 7⟩, ⟨1, false, 9⟩], []⟩ 1).1.results := by
  have h := dask_extract_overcapacity ⟨[⟨0, true, 7⟩, ⟨1, false, 9⟩], []⟩ 1 (by decide)
  exact ⟨h.1, h.2.2.2 ⟨0, true, 7⟩ (by simp) rfl⟩

/-- One capped iteration stays within `[censored_y i, threshold]` when the
caps are below the threshold and the truncnorm oracle's finite outputs lie
in the truncation interval. -/
theorem imputeStep_bounds {n : ℕ} (thr : ℚ) (cy mean : Fin n → ℚ) (tn : Fin n → Option ℚ)
    (hcy : ∀ i, cy i ≤ thr)
    (htn : ∀ i v, tn i = some v → cy i ≤ v ∧ v ≤ thr) (i : Fin n) :
    cy i ≤ clampThreshold thr (rawImpute cy mean tn) i ∧
      clampThreshold thr (rawImpute cy mean tn) i ≤ thr := by
  unfold clampThreshold rawImpute
  cases htn' : tn i with
  | some v =>
    have hb := htn i v htn'
    simp only [htn']
    split
    · exact ⟨hcy i, le_refl thr⟩
    · exact hb
  | none =>
    simp only [htn']
    split
    · exact ⟨hcy i, le_refl thr⟩
    · next h => exact ⟨le_max_left _ _, le_of_not_le h⟩

/-- The vector produced by the imputation loop stays within
`[censored_y i, threshold]` at every index. -/
theorem imputeLoop_bounds {n : ℕ} (cfg : ImputeCfg) (cy : Fin n → ℚ)
    (mean : ℕ → Fin n → ℚ) (tn : ℕ → Fin n → Option ℚ)
    (hcy : ∀ i, cy i ≤ cfg.threshold)
    (htn : ∀ it i v, tn it i = some v → cy i ≤ v ∧ v ≤ cfg.threshold) :
    ∀ fuel it prev i,
      cy i ≤ (imputeLoop cfg cy mean tn fuel it prev).1 i ∧
      (imputeLoop cfg cy mean tn fuel it prev).1 i ≤ cfg.threshold := by
  intro fuel
  induction fuel with
  | zero =>
    intro it prev i
    exact imputeStep_bounds _ _ _ _ hcy (htn it) i
  | succ fuel' ih =>
    intro it prev i
    rw [imputeLoop]
    by_cases hc : cfg.change_threshold <
        (if 1 < it then meanRelChange prev (rawImpute cy (mean it) (tn it)) else 0) ∨ it = 1
    · rw [if_pos hc]
      by_cases hm : cfg.max_iter < it + 1
      · rw [if_pos hm]
        exact imputeStep_bounds _ _ _ _ hcy (htn it) i
      · rw [if_neg hm]
        exact ih (it + 1) _ i
    · rw [if_neg hc]
      exact imputeStep_bounds _ _ _ _ hcy (htn it) i

/-- C6: with a non-empty censored set, caps not above the threshold, and the
truncnorm oracle's finite outputs within the truncation interval, every
value `impute` returns lies within `[censored_y i, threshold]`, and every
returned value is either strictly below the walltime limit or equal to the
threshold (values at or above the limit were replaced by the threshold). -/
theorem impute_range {n : ℕ} (cfg : ImputeCfg) (cy : Fin n → ℚ)
    (mean : ℕ → Fin n → ℚ) (tn : ℕ → Fin n → Option ℚ)
    (hcy : ∀ i, cy i ≤ cfg.threshold)
    (htn : ∀ it i v, tn it i = some v → cy i ≤ v ∧ v ≤ cfg.threshold) :
    ∀ r it chs, impute cfg cy mean tn = some (r, it, chs) →
      ∀ i, (cy i ≤ r i ∧ r i ≤ cfg.threshold) ∧
        (r i < cfg.algorithm_walltime_limit ∨ r i = cfg.threshold) := by
  intro r it chs hr i
  unfold impute at hr
  split at hr
  · simp at hr
  · simp only [Option.some.injEq, Prod.mk.injEq] at hr
    obtain ⟨hfun, -, -⟩ := hr
    have hb := imputeLoop_bounds cfg cy mean tn hcy htn cfg.max_iter 1 (fun _ => 0) i
    have hri : r i = if cfg.algorithm_walltime_limit ≤
        (imputeLoop cfg cy mean tn cfg.max_iter 1 (fun _ => 0)).1 i then cfg.threshold
        else (imputeLoop cfg cy mean tn cfg.max_iter 1 (fun _ => 0)).1 i := by
      rw [← hfun]
    rw [hri]
    by_cases hw : cfg.algorithm_walltime_limit ≤
        (imputeLoop cfg cy mean tn cfg.max_iter 1 (fun _ => 0)).1 i
    · rw [if_pos hw]
      exact ⟨⟨hcy i, le_refl _⟩, Or.inr rfl⟩
    · rw [if_neg hw]
      exact ⟨hb, Or.inl (lt_of_not_le hw)⟩

/-- C6 witness: the single imputed value of the concrete run `imputeW`
lies within its `[cap, threshold] = [3, 20]` interval. -/
theorem impute_range_witness : 3 ≤ imputeWVal ∧ imputeWVal ≤ 20 := by
  unfold imputeWVal imputeW
  cases him : impute (⟨10, 20, 1/100, 2⟩ : ImputeCfg)
      (fun _ => (3 : ℚ)) (fun _ _ => (4 : ℚ)) (fun _ _ => some (5 : ℚ)) with
  | none => exact absurd him (by simp [impute])
  | some r3 =>
    obtain ⟨r, it, chs⟩ := r3
    have h := impute_range ⟨10, 20, 1/100, 2⟩ (fun _ => (3 : ℚ)) (fun _ _ => (4 : ℚ))
      (fun _ _ => some (5 : ℚ)) (fun i => by norm_num)
      (fun it i v hv => by rw [Option.some.injEq] at hv; rw [← hv]; norm_num)
      r it chs him ⟨0, Nat.one_pos⟩
    simpa using h.1

/-- Unfolding of a fuelled loop step that stops because `it + 1` would
exceed `max_iter` (after `it += 1; if it > self.max_iter: break`). -/
theorem imputeLoop_succ_stop {n : ℕ} (cfg : ImputeCfg) (cy : Fin n → ℚ)
    (mean : ℕ → Fin n → ℚ) (tn : ℕ → Fin n → Option ℚ) (fuel it : ℕ) (prev : Fin n → ℚ)
    (hc : cfg.change_threshold <
        (if 1 < it then meanRelChange prev (rawImpute cy (mean it) (tn it)) else 0) ∨ it = 1)
    (hm : cfg.max_iter < it + 1) :
    imputeLoop cfg cy mean tn (fuel + 1) it prev =
      (clampThreshold cfg.threshold (rawImpute cy (mean it) (tn it)), it,
        [if 1 < it then meanRelChange prev (rawImpute cy (mean it) (tn it)) else 0]) := by
  rw [imputeLoop, if_pos hc, if_pos hm]

/-- Unfolding of a fuelled loop step that exits because the change dropped
to the threshold (the `else: break` branch, only possible for `it ≥ 2`). -/
theorem imputeLoop_succ_exit {n : ℕ} (cfg : ImputeCfg) (cy : Fin n → ℚ)
    (mean : ℕ → Fin n → ℚ) (tn : ℕ → Fin n → Option ℚ) (fuel it : ℕ) (prev : Fin n → ℚ)
    (hc : ¬(cfg.change_threshold <
        (if 1 < it then meanRelChange prev (rawImpute cy (mean it) (tn it)) else 0) ∨ it = 1)) :
    imputeLoop cfg cy mean tn (fuel + 1) it prev =
      (clampThreshold cfg.threshold (rawImpute cy (mean it) (tn it)), it,
        [if 1 < it then meanRelChange prev (rawImpute cy (mean it) (tn it)) else 0]) := by
  rw [imputeLoop, if_neg hc]

/-- Unfolding of a fuelled loop step that continues into the next
iteration. -/
theorem imputeLoop_succ_rec {n : ℕ} (cfg : ImputeCfg) (cy : Fin n → ℚ)
    (mean : ℕ → Fin n → ℚ) (tn : ℕ → Fin n → Option ℚ) (fuel it : ℕ) (prev : Fin n → ℚ)
    (hc : cfg.change_threshold <
        (if 1 < it then meanRelChange prev (rawImpute cy (mean it) (tn it)) else 0) ∨ it = 1)
    (hm : ¬cfg.max_iter < it + 1) :
    imputeLoop cfg cy mean tn (fuel + 1) it prev =
      ((imputeLoop cfg cy mean tn fuel (it + 1)
          (clampThreshold cfg.threshold (rawImpute cy (mean it) (tn it)))).1,
       (imputeLoop cfg cy mean tn fuel (it + 1)
          (clampThreshold cfg.threshold (rawImpute cy (mean it) (tn it)))).2.1,
       (if 1 < it then meanRelChange prev (rawImpute cy (mean it) (tn it)) else 0) ::
         (imputeLoop cfg cy mean tn fuel (it + 1)
            (clampThreshold cfg.threshold (rawImpute cy (mean it) (tn it)))).2.2) := by
  rw [imputeLoop, if_pos hc, if_neg hm]

/-- Loop accounting: starting at iteration `it0`, the loop ends at an
iteration in `[it0, max max_iter it0]`, records one `change` per executed
body, and every body it continued past (other than the first iteration)
had a `change` above the threshold. -/
theorem imputeLoop_count {n : ℕ} (cfg : ImputeCfg) (cy : Fin n → ℚ)
    (mean : ℕ → Fin n → ℚ) (tn : ℕ → Fin n → Option ℚ) :
    ∀ fuel it0 prev,
      it0 ≤ (imputeLoop cfg cy mean tn fuel it0 prev).2.1 ∧
      (imputeLoop cfg cy mean tn fuel it0 prev).2.1 ≤ max cfg.max_iter it0 ∧
      (imputeLoop cfg cy mean tn fuel it0 prev).2.2.length =
        (imputeLoop cfg cy mean tn fuel it0 prev).2.1 - it0 + 1 ∧
      ∀ k c, it0 + k < (imputeLoop cfg cy mean tn fuel it0 prev).2.1 →
        (imputeLoop cfg cy mean tn fuel it0 prev).2.2.get? k = some c →
        cfg.change_threshold < c ∨ it0 + k = 1 := by
  intro fuel
  induction fuel with
  | zero =>
    intro it0 prev
    refine ⟨le_refl _, le_max_right _ _, by simp [imputeLoop], ?_⟩
    intro k c hk _
    exact absurd (show it0 + k < it0 from hk) (by omega)
  | succ fuel' ih =>
    intro it0 prev
    by_cases hc : cfg.change_threshold <
        (if 1 < it0 then meanRelChange prev (rawImpute cy (mean it0) (tn it0)) else 0) ∨ it0 = 1
    · by_cases hm : cfg.max_iter < it0 + 1
      · rw [imputeLoop_succ_stop cfg cy mean tn fuel' it0 prev hc hm]
        dsimp only
        refine ⟨le_refl _, le_max_right _ _, by simp, ?_⟩
        intro k c hk _
        exact absurd hk (by omega)
      · rw [imputeLoop_succ_rec cfg cy mean tn fuel' it0 prev hc hm]
        dsimp only
        obtain ⟨h1, h2, h3, h4⟩ := ih (it0 + 1)
          (clampThreshold cfg.threshold (rawImpute cy (mean it0) (tn it0)))
        refine ⟨?_, ?_, ?_, ?_⟩
        · exact le_trans (Nat.le_succ it0) h1
        · have hmx : max cfg.max_iter (it0 + 1) = cfg.max_iter := Nat.max_eq_left (by omega)
          exact le_trans (hmx ▸ h2) (le_max_left _ _)
        · simp only [List.length_cons, h3]
          omega
        · intro k c hk hget
          cases k with
          | zero =>
            simp only [List.get?_cons_zero, Option.some.injEq] at hget
            rcases hc with hlt | h1eq
            · exact Or.inl (hget ▸ hlt)
            · exact Or.inr (by omega)
          | succ k' =>
            simp only [List.get?_cons_succ] at hget
            rcases h4 k' c (by omega) hget with h | h
            · exact Or.inl h
            · exact Or.inr (by omega)
    · rw [imputeLoop_succ_exit cfg cy mean tn fuel' it0 prev hc]
      dsimp only
      refine ⟨le_refl _, le_max_right _ _, by simp, ?_⟩
      intro k c hk _
      exact absurd hk (by omega)

/-- C7 (amended): `impute` always terminates after at most
`max(max_iter, 1)` loop iterations (the body runs once even when
`max_iter = 0`), records one `change` value per iteration, and every
iteration `j ≥ 2` the loop continued past had its mean relative change
strictly above `change_threshold` — i.e. the loop exits as soon as, from
the second iteration on, the change drops to or below the threshold. -/
theorem impute_iteration_bound {n : ℕ} (cfg : ImputeCfg) (cy : Fin n → ℚ)
    (mean : ℕ → Fin n → ℚ) (tn : ℕ → Fin n → Option ℚ) :
    ∀ r it chs, impute cfg cy mean tn = some (r, it, chs) →
      it ≤ max cfg.max_iter 1 ∧ chs.length = it ∧
      ∀ j c, 2 ≤ j → j < it → chs.get? (j - 1) = some c →
        cfg.change_threshold < c := by
  intro r it chs hr
  unfold impute at hr
  split at hr
  · simp at hr
  · simp only [Option.some.injEq, Prod.mk.injEq] at hr
    obtain ⟨-, hit, hchs⟩ := hr
    obtain ⟨h1, h2, h3, h4⟩ := imputeLoop_count cfg cy mean tn cfg.max_iter 1 (fun _ => 0)
    subst hit
    subst hchs
    refine ⟨h2, by omega, ?_⟩
    intro j c hj2 hjlt hget
    have hidx : (1 : ℕ) + (j - 1) = j := by omega
    rcases h4 (j - 1) c (by omega) hget with h | h
    · exact h
    · exact absurd (hidx ▸ h) (by omega)

/-- C7 counterexample: with `max_iter = 0` the loop body still executes
once, so "at most `max_iter` iterations" fails at `max_iter = 0`. -/
theorem impute_maxiter_counterexample :
    (impute (⟨10, 20, 1/100, 0⟩ : ImputeCfg) (fun _ : Fin 1 => (3 : ℚ))
        (fun _ _ => (4 : ℚ)) (fun _ _ => some (5 : ℚ))).map (fun p => p.2.1) = some 1 ∧
    (⟨10, 20, 1/100, 0⟩ : ImputeCfg).max_iter = 0 :=
  ⟨rfl, rfl⟩

/-- C7 witness: the concrete run `imputeW` (with `max_iter = 2`) executes
at most `max 2 1` iterations. -/
theorem impute_iteration_bound_witness : imputeWCount ≤ max 2 1 := by
  unfold imputeWCount imputeW
  cases him : impute (⟨10, 20, 1/100, 2⟩ : ImputeCfg) (fun _ : Fin 1 => (3 : ℚ))
      (fun _ _ => (4 : ℚ)) (fun _ _ => some (5 : ℚ)) with
  | none => exact absurd him (by simp [impute])
  | some r3 =>
    obtain ⟨r, it, chs⟩ := r3
    exact (impute_iteration_bound ⟨10, 20, 1/100, 2⟩ (fun _ => (3 : ℚ))
      (fun _ _ => (4 : ℚ)) (fun _ _ => some (5 : ℚ)) r it chs him).1

/-- C10: for a non-empty configuration list with an equal-length list of
scalar objective values, `select` composed with the single-objective
ranking returns the configuration at the first index attaining the minimal
objective (the sort is stable); for the empty list it raises `IndexError`
instead of returning a value. -/
theorem select_first_min {α : Type} (configurations : List α) (objectives : List ℚ)
    (hlen : configurations.length = objectives.length) :
    (configurations = [] → select configurations objectives = .error .indexError) ∧
    (configurations ≠ [] →
      ∃ i, ∃ hi : i < configurations.length,
        select configurations objectives = .ok (configurations.get ⟨i, hi⟩) ∧
        (∀ j, j < objectives.length → objectives.getD i 0 ≤ objectives.getD j 0) ∧
        (∀ j, j < i → objectives.getD i 0 < objectives.getD j 0)) := by
  constructor
  · intro h
    subst h
    simp [select, rank]
  · intro hne
    have htrans : ∀ a b c : ℕ,
        (fun i j => decide (objectives.getD i 0 ≤ objectives.getD j 0)) a b →
        (fun i j => decide (objectives.getD i 0 ≤ objectives.getD j 0)) b c →
        (fun i j => decide (objectives.getD i 0 ≤ objectives.getD j 0)) a c := by
      intro a b c hab hbc
      simp only [decide_eq_true_eq] at *
      exact le_trans hab hbc
    have htotal : ∀ a b : ℕ,
        (fun i j => decide (objectives.getD i 0 ≤ objectives.getD j 0)) a b ||
        (fun i j => decide (objectives.getD i 0 ≤ objectives.getD j 0)) b a := by
      intro a b
      simp only [Bool.or_eq_true, decide_eq_true_eq]
      exact le_total _ _
    have hlen2 : ((List.range configurations.length).mergeSort
        (fun i j => decide (objectives.getD i 0 ≤ objectives.getD j 0))).length =
        configurations.length := by
      rw [List.length_mergeSort, List.length_range]
    have hpos : 0 < configurations.length := List.length_pos.mpr hne
    obtain ⟨i, rest, hsort⟩ : ∃ i rest,
        (List.range configurations.length).mergeSort
          (fun i j => decide (objectives.getD i 0 ≤ objectives.getD j 0)) = i :: rest := by
      cases hh : (List.range configurations.length).mergeSort
          (fun i j => decide (objectives.getD i 0 ≤ objectives.getD j 0)) with
      | nil => rw [hh] at hlen2; simp at hlen2; omega
      | cons a l => exact ⟨a, l, rfl⟩
    have himem : i < configurations.length := by
      have hm : i ∈ (List.range configurations.length).mergeSort
          (fun i j => decide (objectives.getD i 0 ≤ objectives.getD j 0)) := by
        rw [hsort]; exact List.mem_cons_self _ _
      rw [List.mem_mergeSort] at hm
      exact List.mem_range.mp hm
    have hnodup : ((List.range configurations.length).mergeSort
        (fun i j => decide (objectives.getD i 0 ≤ objectives.getD j 0))).Nodup :=
      ((List.mergeSort_perm (List.range configurations.length) _).nodup_iff).mpr
        (List.nodup_range _)
    rw [hsort] at hnodup
    have hsorted := List.sorted_mergeSort htrans htotal (List.range configurations.length)
    rw [hsort] at hsorted
    have hhead := (List.pairwise_cons.mp hsorted).1
    have hget : configurations.get? i = some (configurations.get ⟨i, himem⟩) :=
      List.get?_eq_get himem
    refine ⟨i, himem, ?_, ?_, ?_⟩
    · simp only [select, rank, hsort, hget]
    · intro j hj
      have hjmem : j ∈ (List.range configurations.length).mergeSort
          (fun i j => decide (objectives.getD i 0 ≤ objectives.getD j 0)) := by
        rw [List.mem_mergeSort]
        exact List.mem_range.mpr (by omega)
      rw [hsort] at hjmem
      rcases List.mem_cons.mp hjmem with rfl | hjr
      · exact le_refl _
      · exact of_decide_eq_true (hhead j hjr)
    · intro j hj
      by_contra hcon
      push_neg at hcon
      have hsub : List.Sublist [j, i] (List.range configurations.length) := by
        have h1 : List.Sublist [j] (List.range i) :=
          List.singleton_sublist.mpr (List.mem_range.mpr hj)
        have h2 : List.Sublist ([j] ++ [i]) (List.range i ++ [i]) :=
          h1.append (List.Sublist.refl [i])
        rw [← List.range_succ] at h2
        exact h2.trans (List.range_sublist.mpr (by omega))
      have hpair := List.pair_sublist_mergeSort htrans htotal (decide_eq_true hcon) hsub
      rw [hsort] at hpair
      cases hpair with
      | cons _ h2 =>
        exact absurd (h2.subset (by simp)) (List.nodup_cons.mp hnodup).1
      | cons₂ h2 => omega

/-- C10 witness: configurations `[10, 20, 5]` with objectives `[3, 1, 2]`;
the minimum objective sits at index 1, so `select` returns `20`; and the
empty list raises `IndexError`. -/
theorem select_first_min_witness :
    select ([10, 20, 5] : List ℕ) [3, 1, 2] = .ok 20 ∧
    select ([] : List ℕ) [] = .error .indexError := by
  constructor
  · obtain ⟨i, hi, hsel, hmin, hfirst⟩ :=
      (select_first_min ([10, 20, 5] : List ℕ) [3, 1, 2] rfl).2 (by simp)
    have hi3 : i < 3 := hi
    have hne0 : i ≠ 0 := by
      intro h0
      have h := hmin 1 (by norm_num)
      rw [h0] at h
      norm_num [List.getD] at h
    have hne2 : i ≠ 2 := by
      intro h2
      have h := hfirst 1 (by omega)
      rw [h2] at h
      norm_num [List.getD] at h
    have h1 : i = 1 := by omega
    subst h1
    simpa using hsel
  · exact (select_first_min ([] : List ℕ) [] rfl).1 rfl

end SMAC





